import Mathlib

/-!
Verification development for the meteoritus tus-1.0.0 upload middleware.

The definitions below are a shallow embedding of the Rust sources:
  * `src/fs/metadata.rs`   — the `Upload-Metadata` codec,
  * `src/fs/file_info.rs`  — the `FileInfo` record and its transitions,
  * `src/fs/vault.rs`      — the `LocalVault` persistence operations,
  * `src/handlers/*.rs`    — the request guards and HTTP handlers,
  * `src/lib.rs` / `src/meteoritus.rs` — protocol header constants.

The filesystem is modelled as an explicit association of upload ids to a
data-file byte list plus the sidecar `FileInfo`; `u64` quantities are `Nat`
with the source's explicit bound checks kept where they occur.  A Rust
`panic!` (from `.unwrap()` on an `Err`) is a distinct outcome constructor,
not an error return.
-/

namespace Meteoritus

/-- The whitespace test used by Rust `str::trim`, i.e.
`char::is_whitespace`: the Unicode `White_Space` property — the ASCII
range U+0009–U+000D and U+0020, plus NEL, NBSP, the Ogham space mark, the
U+2000–U+200A spaces, the line and paragraph separators, the narrow
no-break and medium mathematical spaces, and the ideographic space. -/
def isWhitespace (c : Char) : Bool :=
  (0x09 ≤ c.toNat ∧ c.toNat ≤ 0x0D) || c.toNat = 0x20 || c.toNat = 0x85 ||
    c.toNat = 0xA0 || c.toNat = 0x1680 ||
    (0x2000 ≤ c.toNat ∧ c.toNat ≤ 0x200A) || c.toNat = 0x2028 ||
    c.toNat = 0x2029 || c.toNat = 0x202F || c.toNat = 0x205F ||
    c.toNat = 0x3000

/-- Rust `str::split(sep)` on a character list: every occurrence of `sep`
separates pieces, and the result always has at least one (possibly empty)
piece, e.g. `split ',' "" = [""]` and `split ',' "a," = ["a", ""]`. -/
def splitOnChar (sep : Char) : List Char → List (List Char)
  | [] => [[]]
  | c :: rest =>
    let r := splitOnChar sep rest
    if c = sep then [] :: r
    else
      match r with
      | [] => [[c]]
      | h :: t => (c :: h) :: t

/-- Drop leading whitespace (`str::trim_start`). -/
def trimLeft (l : List Char) : List Char :=
  l.dropWhile (fun c => isWhitespace c)

/-- Drop trailing whitespace (`str::trim_end`). -/
def trimRight (l : List Char) : List Char :=
  (l.reverse.dropWhile (fun c => isWhitespace c)).reverse

/-- Rust `str::trim`. -/
def trimChars (l : List Char) : List Char :=
  trimRight (trimLeft l)

/-- `MetadataError` from `src/fs/metadata.rs`. -/
inductive MetadataError where
  | invalidKey
  | decodeError (msg : String)
  | invalidMetadataFormat
deriving DecidableEq, Repr

/-- `Metadata` from `src/fs/metadata.rs`: a `HashMap<String, String>`,
modelled as a key-unique association list (insertion order retained,
which a `HashMap` does not guarantee — no claim depends on order). -/
structure Metadata where
  entries : List (List Char × List Char)
deriving DecidableEq, Repr

/-- `Metadata::new()` / `Metadata::default()`. -/
def emptyMetadata : Metadata := ⟨[]⟩

/-- `HashMap::insert`: replace the value when the key is present,
otherwise add the binding. -/
def mdInsert (m : Metadata) (k v : List Char) : Metadata :=
  if m.entries.any (fun e => e.1 = k) then
    ⟨m.entries.map (fun e => if e.1 = k then (e.1, v) else e)⟩
  else ⟨m.entries ++ [(k, v)]⟩

/-- `HashMap::get`. -/
def mdGet (m : Metadata) (k : List Char) : Option (List Char) :=
  (m.entries.find? (fun e => e.1 = k)).map (fun e => e.2)

/-- `Metadata::len()`. -/
def mdLen (m : Metadata) : Nat := m.entries.length

/-- The loop body of `Metadata::try_from` (`src/fs/metadata.rs:103-128`):
fold the comma-separated pairs into the map, erroring as the source does. -/
def insertPairs : List (List Char) → Metadata → Except MetadataError Metadata
  | [], m => .ok m
  | pair :: rest, m =>
    let p := trimChars pair
    if p = [] then insertPairs rest m
    else
      let parts := (splitOnChar ' ' p).map trimChars
      if parts.length = 0 ∨ parts.length > 2 then .error .invalidMetadataFormat
      else if parts.headI = [] then .error .invalidKey
      else
        let key := parts.headI
        let v :=
          match parts.get? 1 with
          | some w => w
          | none => []
        insertPairs rest (mdInsert m key v)

/-- `Metadata::try_from` (`src/fs/metadata.rs:96-131`). -/
def metadataTryFrom (value : List Char) : Except MetadataError Metadata :=
  if value = [] then .error .invalidMetadataFormat
  else insertPairs (splitOnChar ',' value) emptyMetadata

/-- Value of a character in the RFC 4648 standard base64 alphabet. -/
def b64Val (c : Char) : Option Nat :=
  if 'A' ≤ c ∧ c ≤ 'Z' then some (c.toNat - 65)
  else if 'a' ≤ c ∧ c ≤ 'z' then some (c.toNat - 97 + 26)
  else if '0' ≤ c ∧ c ≤ '9' then some (c.toNat - 48 + 52)
  else if c = '+' then some 62
  else if c = '/' then some 63
  else none

/-- The `base64` crate's `STANDARD` engine decode: canonical padding
required, input length a multiple of four, trailing bits must be zero.
The empty input decodes to zero bytes. -/
def b64Decode : List Char → Except String (List Nat)
  | [] => .ok []
  | a :: b :: c :: d :: rest =>
    match b64Val a, b64Val b with
    | some va, some vb =>
      if c = '=' then
        if d = '=' ∧ rest = [] then
          if vb % 16 = 0 then .ok [va * 4 + vb / 16] else .error "InvalidLastSymbol"
        else .error "InvalidByte"
      else
        match b64Val c with
        | some vc =>
          if d = '=' then
            if rest = [] then
              if vc % 4 = 0 then .ok [va * 4 + vb / 16, (vb % 16) * 16 + vc / 4]
              else .error "InvalidLastSymbol"
            else .error "InvalidByte"
          else
            match b64Val d with
            | some vd =>
              match b64Decode rest with
              | .ok tail =>
                .ok ([va * 4 + vb / 16, (vb % 16) * 16 + vc / 4, (vc % 4) * 64 + vd] ++ tail)
              | .error e => .error e
            | none => .error "InvalidByte"
        | none => .error "InvalidByte"
    | _, _ => .error "InvalidByte"
  | _ => .error "InvalidLength"

/-- `Metadata::get_raw` (`src/fs/metadata.rs:55-65`). -/
def getRaw (m : Metadata) (key : List Char) : Except MetadataError (List Nat) :=
  match mdGet m key with
  | none => .error .invalidKey
  | some v =>
    match b64Decode v with
    | .ok decoded => .ok decoded
    | .error e => .error (.decodeError e)

/-! ### FileInfo (`src/fs/file_info.rs`)

The Rust type-state parameter (`Building`/`Built`/`Created`/`Completed`) is
phantom: all states share the same runtime record, so the embedding uses one
structure and mirrors each state's methods as plain functions. -/

/-- The `FileInfo` record (`src/fs/file_info.rs:34-43`). -/
structure FileInfo where
  id : String
  file_name : String
  length : Nat
  offset : Nat
  metadata : Option Metadata
deriving DecidableEq, Repr

/-- `FileInfo::new(length)` (`Building` state): only `length` set, the other
fields `Default`. -/
def FileInfo.new (length : Nat) : FileInfo :=
  { id := "", file_name := "", length := length, offset := 0, metadata := none }

/-- `FileInfo::with_raw_id` (`with_uuid` calls it with a fresh UUID; the
generated id is threaded in as an argument since it is non-deterministic). -/
def FileInfo.withRawId (f : FileInfo) (id : String) : FileInfo :=
  { f with id := id }

/-- `FileInfo::with_metadata`. -/
def FileInfo.withMetadata (f : FileInfo) (m : Metadata) : FileInfo :=
  { f with metadata := some m }

/-- `FileInfo::<Built>::mark_as_created`. -/
def FileInfo.markAsCreated (f : FileInfo) (fileName : String) : FileInfo :=
  { f with file_name := fileName }

/-- `FileInfo::<Created>::set_offset` (`src/fs/file_info.rs:104-112`):
errors (Rust `io::Error` of kind `OutOfMemory`) when `offset > length`. -/
def FileInfo.setOffset (f : FileInfo) (offset : Nat) : Except Unit FileInfo :=
  if offset > f.length then .error ()
  else .ok { f with offset := offset }

/-- `FileInfo::<Created>::check_completion` (`src/fs/file_info.rs:114-123`). -/
def FileInfo.checkCompletion (f : FileInfo) : Option FileInfo :=
  if f.offset ≠ f.length then none else some f

/-! ### LocalVault (`src/fs/vault.rs`) -/

/-- `VaultError` (`src/fs/vault.rs:18-23`); the boxed causes are dropped. -/
inductive VaultError where
  | creationError
  | readError
  | error
deriving DecidableEq, Repr

/-- `PatchOption` (`src/fs/vault.rs:13-16`). -/
inductive PatchOption where
  | patched (offset : Nat)
  | completed (file : FileInfo)
deriving DecidableEq, Repr

/-- One upload's on-disk footprint: the data file `R/<id>/file` and the
sidecar `R/<id>/info.json` (deserialized). -/
structure UploadEntry where
  content : List Nat
  info : FileInfo
deriving DecidableEq, Repr

/-- The vault's directory, keyed by upload id. -/
structure VaultState where
  files : List (String × UploadEntry)
deriving DecidableEq, Repr

def lookupFile (st : VaultState) (id : String) : Option UploadEntry :=
  (st.files.find? (fun p => p.1 = id)).map (fun p => p.2)

def updateFile (st : VaultState) (id : String) (e : UploadEntry) : VaultState :=
  ⟨st.files.map (fun p => if p.1 = id then (p.1, e) else p)⟩

def insertFile (st : VaultState) (id : String) (e : UploadEntry) : VaultState :=
  ⟨st.files ++ [(id, e)]⟩

/-- `LocalVault::build_file` (`src/fs/vault.rs:60-80`): run the metadata
codec (`Metadata::default()` when the header is absent), then
`FileInfo::new(length).with_uuid().with_metadata(..).build()`. -/
def buildFile (length : Nat) (metadata : Option (List Char)) (uuid : String) :
    Except VaultError FileInfo :=
  match metadata with
  | some md =>
    match metadataTryFrom md with
    | .ok m => .ok (((FileInfo.new length).withRawId uuid).withMetadata m)
    | .error _ => .error .creationError
  | none => .ok (((FileInfo.new length).withRawId uuid).withMetadata emptyMetadata)

/-- `LocalVault::create_file` (`src/fs/vault.rs:82-123`): `File::create_new`
fails when the upload already exists; the data file is preallocated to
`length` zero bytes; the sidecar stores the `Built` record (its `file_name`
still empty — `mark_as_created` runs after serialization). -/
def createFile (savePath : String) (st : VaultState) (fi : FileInfo) :
    Except VaultError (FileInfo × VaultState) :=
  match lookupFile st fi.id with
  | some _ => .error .creationError
  | none =>
    let fileName := savePath ++ "/" ++ fi.id
    .ok (fi.markAsCreated fileName,
         insertFile st fi.id ⟨List.replicate fi.length 0, fi⟩)

/-- `LocalVault::exists` (`src/fs/vault.rs:125-131`). -/
def vaultExists (st : VaultState) (id : String) : Bool :=
  (lookupFile st id).isSome

/-- `LocalVault::get_file` (`src/fs/vault.rs:133-147`): a missing sidecar is
reported as `CreationError` (the source maps the `File::open` failure so). -/
def getFile (st : VaultState) (id : String) : Except VaultError FileInfo :=
  match lookupFile st id with
  | none => .error .creationError
  | some e => .ok e.info

/-- POSIX positioned write: place `data` at `off`, zero-filling any gap
beyond the current end of file. -/
def writeAt (content : List Nat) (off : Nat) (data : List Nat) : List Nat :=
  content.take off ++ List.replicate (off - content.length) 0 ++ data
    ++ content.drop (off + data.length)

/-- `u64::MAX` cast to `usize` (64-bit target). -/
def U64MAX : Nat := 2 ^ 64 - 1

/-- Outcome of `patch_file`, with a Rust panic (an `.unwrap()` on an `Err`)
as its own constructor. -/
inductive PatchResult where
  | ok (res : PatchOption)
  | vaultErr (e : VaultError)
  | panicked
deriving DecidableEq, Repr

/-- `LocalVault::patch_file` (`src/fs/vault.rs:149-190`).  `w` is the byte
count the OS reports for `File::write` (the OS contract gives
`w ≤ buf.length`; a short write is possible).  The source order is kept:
offset comparison, data-file write, the `u64::MAX` guard, `set_offset`
(whose `Err` is `.unwrap()`ed — a panic — when the new offset exceeds
`length`), sidecar rewrite, `check_completion`. -/
def patchFile (st : VaultState) (fileId : String) (buf : List Nat)
    (offset w : Nat) : PatchResult × VaultState :=
  match lookupFile st fileId with
  | none => (.vaultErr .creationError, st)
  | some entry =>
    if entry.info.offset ≠ offset then (.vaultErr .error, st)
    else
      let newContent := writeAt entry.content offset (buf.take w)
      let st1 := updateFile st fileId ⟨newContent, entry.info⟩
      if U64MAX ≤ w then (.vaultErr .error, st1)
      else
        let offset2 := offset + w
        match entry.info.setOffset offset2 with
        | .error _ => (.panicked, st1)
        | .ok info2 =>
          let st2 := updateFile st1 fileId ⟨newContent, info2⟩
          match info2.checkCompletion with
          | some fc => (.ok (.completed fc), st2)
          | none => (.ok (.patched offset2), st2)

/-- Modelled from the spec: `terminate_file` is called by
`upload_handler` and `termination_handler` but has no implementation under
`src/` (the `Vault` trait in `src/fs/vault.rs` does not declare it).  Per
spec §4.3.4 it loads the sidecar, removes the data file and the sidecar,
and returns the last snapshot; a terminate on a missing id fails. -/
def terminateFile (st : VaultState) (id : String) :
    Except VaultError (FileInfo × VaultState) :=
  match lookupFile st id with
  | none => .error .error
  | some e => .ok (e.info, ⟨st.files.filter (fun p => p.1 ≠ id)⟩)

/-! ### Protocol adapter (`src/handlers/*.rs`, `src/lib.rs`, `src/meteoritus.rs`) -/

/-- The shared `Tus-Resumable` precondition as written in
`CreationRequest::from_request` and `UploadRequest::from_request`:
the header must be present and exactly `"1.0.0"`. -/
def checkTusResumable (h : Option String) : Bool :=
  h = some "1.0.0"

/-- Rust `str::parse::<u64>` (digits only, value below `2^64`; the embedding
omits the leading `+` that Rust also accepts — no claim touches it). -/
def parseU64 (s : String) : Option Nat :=
  match s.toNat? with
  | some n => if n < 2 ^ 64 then some n else none
  | none => none

/-- Outcome of a Rocket request guard: forward to the handler or answer
with a status directly. -/
inductive GuardOutcome (α : Type) where
  | success (v : α)
  | failure (status : Nat)
deriving DecidableEq, Repr

/-- Headers read by `CreationRequest::from_request`. -/
structure CreationHeaders where
  tusResumable : Option String
  uploadLength : Option String
  uploadMetadata : Option String
deriving DecidableEq, Repr

/-- `CreationRequest::from_request` (`src/handlers/creation.rs:87-140`):
`Tus-Resumable` check, then `Upload-Length` (missing or unparsable → 400,
above `max_size` → 413), then `Upload-Metadata` (empty string treated as
absent).  Yields `(upload_length, metadata)`. -/
def creationRequestGuard (maxSize : Nat) (h : CreationHeaders) :
    GuardOutcome (Nat × Option String) :=
  if ¬ checkTusResumable h.tusResumable then .failure 400
  else
    match h.uploadLength with
    | none => .failure 400
    | some v =>
      match parseU64 v with
      | none => .failure 400
      | some len =>
        if maxSize < len then .failure 413
        else
          let md :=
            match h.uploadMetadata with
            | none => none
            | some m => if m = "" then none else some m
          .success (len, md)

/-- Headers read by `UploadRequest::from_request`. -/
structure UploadHeaders where
  tusResumable : Option String
  uploadOffset : Option String
  contentType : Option String
deriving DecidableEq, Repr

/-- `UploadRequest::from_request` (`src/handlers/upload.rs:70-129`):
`Tus-Resumable` check, then `Upload-Offset` (missing or unparsable → 400),
then `Content-Type` (missing → 400, other than
`application/offset+octet-stream` → 415).  Yields the client offset. -/
def uploadRequestGuard (h : UploadHeaders) : GuardOutcome Nat :=
  if ¬ checkTusResumable h.tusResumable then .failure 400
  else
    match h.uploadOffset with
    | none => .failure 400
    | some v =>
      match parseU64 v with
      | none => .failure 400
      | some offset =>
        match h.contentType with
        | none => .failure 400
        | some ct =>
          if ct ≠ "application/offset+octet-stream" then .failure 415
          else .success offset

/-- `TerminationRequest::from_request` (`src/handlers/termination.rs:40-51`):
it reads no header at all — in particular it never checks `Tus-Resumable` —
and always succeeds. -/
def terminationRequestGuard (_tusResumable : Option String) : GuardOutcome Unit :=
  .success ()

/-- A handler outcome together with whether any vault operation ran. -/
structure RequestOutcome where
  status : Nat
  vaultInvoked : Bool
deriving DecidableEq, Repr

/-- A `HEAD /<id>` request end to end (`src/handlers/file_info.rs:15-24`):
`file_info_handler` has no request guard, so `vault.get_file` runs whatever
the `Tus-Resumable` header holds; found → 204, missing → 404. -/
def headRequest (st : VaultState) (_tusResumable : Option String) (id : String) :
    RequestOutcome :=
  match getFile st id with
  | .ok _ => ⟨204, true⟩
  | .error _ => ⟨404, true⟩

/-- A `DELETE /<id>` request end to end
(`src/handlers/termination.rs:13-33`): the guard never fails, so
`vault.terminate_file` runs whatever the `Tus-Resumable` header holds;
failure → 410 Gone, success → 204. -/
def deleteRequest (st : VaultState) (tusResumable : Option String) (id : String) :
    RequestOutcome :=
  match terminationRequestGuard tusResumable with
  | .failure s => ⟨s, false⟩
  | .success _ =>
    match terminateFile st id with
    | .error _ => ⟨410, true⟩
    | .ok _ => ⟨204, true⟩

/-- `upload_handler` outcome: `UploadResponder::Success(offset)` renders as
204 with `Upload-Offset`; `Failure(status)` as the bare status; a panic in
`patch_file` propagates. -/
inductive UploadOutcome where
  | response (status : Nat) (uploadOffset : Option Nat)
  | panicked
deriving DecidableEq, Repr

/-- `upload_handler` (`src/handlers/upload.rs:14-58`) after its guard:
404 when `vault.exists` fails, 422 when the body stream fails
(`body = none`) or `patch_file` errors, otherwise 204 with the new offset;
on `Completed` the length is reported and, with `auto_terminate`,
`terminate_file` runs (its failure → 500).  The `on_completed` callback is
notification-only and does not affect the response. -/
def uploadHandler (st : VaultState) (id : String) (body : Option (List Nat))
    (offset w : Nat) (autoTerminate : Bool) : UploadOutcome × VaultState :=
  match lookupFile st id with
  | none => (.response 404 none, st)
  | some _ =>
    match body with
    | none => (.response 422 none, st)
    | some buf =>
      match patchFile st id buf offset w with
      | (.panicked, st1) => (.panicked, st1)
      | (.vaultErr _, st1) => (.response 422 none, st1)
      | (.ok (.patched o), st1) => (.response 204 (some o), st1)
      | (.ok (.completed f), st1) =>
        if autoTerminate then
          match terminateFile st1 id with
          | .error _ => (.response 500 none, st1)
          | .ok (_, st2) => (.response 204 (some f.length), st2)
        else (.response 204 (some f.length), st1)

/-- `creation_handler` response: 201 with `Location`, or a status with a
short body. -/
inductive CreationOutcome where
  | success (location : String)
  | failure (status : Nat) (body : String)
deriving DecidableEq, Repr

/-- Which side effects `creation_handler` performed. -/
structure CreationEffects where
  createFileInvoked : Bool
  onCreatedFired : Bool
deriving DecidableEq, Repr

/-- `creation_handler` (`src/handlers/creation.rs:17-74`):
`build_file` failure → 500 `"creation error"`; base-route parse failure →
500 `"some error"`; a registered `on_creation` callback may reject, giving
422 with the error message before any persistence; then `create_file`
(failure → 500 `"some vault error"`), and on success the registered
`on_created` callback fires and 201 with the upload URI is returned. -/
def creationHandler (savePath : String) (st : VaultState) (uploadLength : Nat)
    (metadata : Option (List Char)) (uuid : String)
    (onCreation : Option (FileInfo → Except String Unit))
    (onCreatedRegistered : Bool) (baseRoute : String) (baseRouteOk : Bool) :
    CreationOutcome × CreationEffects × VaultState :=
  match buildFile uploadLength metadata uuid with
  | .error _ => (.failure 500 "creation error", ⟨false, false⟩, st)
  | .ok file =>
    if ¬ baseRouteOk then (.failure 500 "some error", ⟨false, false⟩, st)
    else
      let uri := baseRoute ++ "/" ++ file.id
      let persist : CreationOutcome × CreationEffects × VaultState :=
        match createFile savePath st file with
        | .ok (_, st1) => (.success uri, ⟨true, onCreatedRegistered⟩, st1)
        | .error _ => (.failure 500 "some vault error", ⟨true, false⟩, st)
      match onCreation with
      | some cb =>
        match cb file with
        | .error e => (.failure 422 e, ⟨false, false⟩, st)
        | .ok _ => persist
      | none => persist

/-- `Vec::join(",")` as used by the `MeteoritusHeaders` renderer. -/
def headerJoin : List String → String
  | [] => ""
  | [s] => s
  | s :: rest => s ++ "," ++ headerJoin rest

/-- `Meteoritus::get_protocol_extensions` in `src/lib.rs:77-79` — the
impl the `OPTIONS` responder resolves to (`info.rs` calls it as an
associated function on the non-generic `Meteoritus`, which only the
`lib.rs` impl provides). -/
def libGetProtocolExtensions : List String :=
  ["creation", "expiration", "termination"]

/-- `Meteoritus::<P>::get_protocol_extensions` in
`src/meteoritus.rs:173-175` (takes `&self`; not callable from `info.rs`'s
receiver-less call). -/
def meteoritusGetProtocolExtensions : List String :=
  ["creation", "termination"]

/-- The `OPTIONS /` response as a record of its status and tus headers. -/
structure OptionsResponse where
  status : Nat
  tusResumable : String
  tusVersion : String
  tusExtension : String
  tusMaxSize : String
deriving DecidableEq, Repr

/-- `InfoResponder::respond_to` (`src/handlers/info.rs:36-48`): status 204,
`Tus-Resumable`, `Tus-Version`, `Tus-Extension` and `Tus-Max-Size` headers
rendered through `MeteoritusHeaders` (`src/lib.rs:166-175`). -/
def infoRespond (maxSize : Nat) : OptionsResponse :=
  { status := 204
    tusResumable := "1.0.0"
    tusVersion := headerJoin ["1.0.0"]
    tusExtension := headerJoin libGetProtocolExtensions
    tusMaxSize := Nat.repr maxSize }

/-! ### Concrete stores used by witnesses and counterexamples -/

/-- A one-byte upload at offset 0 (sidecar as `create_file` leaves it). -/
def c1Info : FileInfo :=
  { id := "f1", file_name := "", length := 1, offset := 0, metadata := some emptyMetadata }

def c1Entry : UploadEntry := ⟨[0], c1Info⟩

def c1State : VaultState := ⟨[("f1", c1Entry)]⟩

/-- A ten-byte upload five bytes in. -/
def c2Info : FileInfo :=
  { id := "u1", file_name := "", length := 10, offset := 5, metadata := some emptyMetadata }

def c2Entry : UploadEntry := ⟨List.replicate 10 0, c2Info⟩

def c2State : VaultState := ⟨[("u1", c2Entry)]⟩

/-- A two-byte upload at offset 0. -/
def c5Info : FileInfo :=
  { id := "g1", file_name := "", length := 2, offset := 0, metadata := some emptyMetadata }

def c5Entry : UploadEntry := ⟨[0, 0], c5Info⟩

def c5State : VaultState := ⟨[("g1", c5Entry)]⟩

end Meteoritus

namespace Meteoritus

/-! ### Theorems -/

/-- **C10.** For every length, `build_file(length, None)` succeeds and the
resulting `FileInfo` has `metadata()` equal to `Some` of the empty mapping —
never `None` (`Metadata::default()` is substituted before `with_metadata`,
so the sidecar's `metadata` field serializes as an empty object, not
`null`). -/
theorem c10_build_file_empty_metadata (length : Nat) (uuid : String) :
    buildFile length none uuid =
      .ok { id := uuid, file_name := "", length := length, offset := 0,
            metadata := some emptyMetadata } := rfl

/-- **C4** counterexample: at the default-style configuration the `OPTIONS`
response advertises `Tus-Extension: creation,expiration,termination` — the
extension list of `src/lib.rs`'s `get_protocol_extensions`, the impl the
responder in `src/handlers/info.rs` resolves to — not
`creation,termination` as claimed. -/
theorem c4_counterexample :
    (infoRespond 5000000).tusExtension = "creation,expiration,termination" ∧
      ¬ (infoRespond 5000000).tusExtension = "creation,termination" := by
  constructor
  · rfl
  · decide

/-- **C4** amended: every `OPTIONS` request returns status 204 with
`Tus-Resumable: 1.0.0`, `Tus-Version: 1.0.0`,
`Tus-Extension: creation,expiration,termination` and `Tus-Max-Size` set to
the configured maximum in bytes. -/
theorem c4_options_response (maxSize : Nat) :
    infoRespond maxSize =
      { status := 204, tusResumable := "1.0.0", tusVersion := "1.0.0",
        tusExtension := "creation,expiration,termination",
        tusMaxSize := Nat.repr maxSize } := rfl

/-- **C3** counterexample: a `HEAD` request with no `Tus-Resumable` header
at all still invokes `vault.get_file` (there is no request guard on
`file_info_handler`) and answers 404, not 400. -/
theorem c3_counterexample :
    (headRequest ⟨[]⟩ none "abc").vaultInvoked = true ∧
      ¬ (headRequest ⟨[]⟩ none "abc").status = 400 := by decide

/-- **C3** amended: only the POST and PATCH guards enforce
`Tus-Resumable: 1.0.0` (missing or different → 400 before any vault call);
the HEAD handler has no guard and always invokes `vault.get_file`, and the
DELETE guard checks nothing, so the termination handler always invokes
`vault.terminate_file`, whatever the header holds. -/
theorem c3_tus_resumable_guards :
    (∀ (maxSize : Nat) (h : CreationHeaders),
        checkTusResumable h.tusResumable = false →
          creationRequestGuard maxSize h = .failure 400)
    ∧ (∀ h : UploadHeaders,
        checkTusResumable h.tusResumable = false →
          uploadRequestGuard h = .failure 400)
    ∧ (∀ (st : VaultState) (tus : Option String) (id : String),
        (headRequest st tus id).vaultInvoked = true)
    ∧ (∀ (st : VaultState) (tus : Option String) (id : String),
        (deleteRequest st tus id).vaultInvoked = true) := by
  refine ⟨?_, ?_, ?_, ?_⟩
  · intro maxSize h hch
    simp [creationRequestGuard, hch]
  · intro h hch
    simp [uploadRequestGuard, hch]
  · intro st tus id
    unfold headRequest
    cases getFile st id <;> rfl
  · intro st tus id
    unfold deleteRequest terminationRequestGuard
    cases terminateFile st id <;> rfl

/-- **C3** witness: concrete bad-header requests hitting each branch. -/
theorem c3_witness :
    creationRequestGuard 100 ⟨none, some "5", none⟩ = .failure 400 ∧
      uploadRequestGuard ⟨some "2.0.0", some "0",
        some "application/offset+octet-stream"⟩ = .failure 400 ∧
      (headRequest ⟨[]⟩ none "w1").vaultInvoked = true :=
  ⟨c3_tus_resumable_guards.1 100 ⟨none, some "5", none⟩ (by decide),
   c3_tus_resumable_guards.2.1 ⟨some "2.0.0", some "0",
     some "application/offset+octet-stream"⟩ (by decide),
   c3_tus_resumable_guards.2.2.1 ⟨[]⟩ none "w1"⟩

/-- **C2** counterexample: on a stored offset of 5, a PATCH at client
offset 3 makes `patch_file` return the catch-all `VaultError::Error`
(there is no `OffsetMismatch` variant) and the handler answers
422 Unprocessable Entity, not 409 Conflict. -/
theorem c2_counterexample :
    patchFile c2State "u1" [1] 3 1 = (.vaultErr .error, c2State) ∧
      (uploadHandler c2State "u1" (some [1]) 3 1 true).1 = .response 422 none ∧
      ¬ (uploadHandler c2State "u1" (some [1]) 3 1 true).1 = .response 409 none := by
  decide

/-- **C2** amended: for every PATCH on an existing upload whose client
offset differs from the stored offset, `patch_file` returns the generic
`VaultError::Error` with the store unchanged, and the HTTP response status
is 422 Unprocessable Entity. -/
theorem c2_offset_mismatch (st : VaultState) (id : String) (entry : UploadEntry)
    (buf : List Nat) (offset w : Nat) (autoTerminate : Bool)
    (hlk : lookupFile st id = some entry)
    (hoff : ¬ entry.info.offset = offset) :
    patchFile st id buf offset w = (.vaultErr .error, st) ∧
      uploadHandler st id (some buf) offset w autoTerminate =
        (.response 422 none, st) := by
  have hp : patchFile st id buf offset w = (.vaultErr .error, st) := by
    simp [patchFile, hlk, hoff]
  refine ⟨hp, ?_⟩
  simp [uploadHandler, hlk, hp]

/-- **C2** witness: the mismatch at the concrete store. -/
theorem c2_witness :
    patchFile c2State "u1" [2] 4 1 = (.vaultErr .error, c2State) ∧
      uploadHandler c2State "u1" (some [2]) 4 1 false =
        (.response 422 none, c2State) :=
  c2_offset_mismatch c2State "u1" c2Entry [2] 4 1 false (by decide) (by decide)

/-- **C1** counterexample: on a length-1 upload at stored offset 0, a
two-byte PATCH at client offset 0 is *not* rejected before writing: the
data file becomes `[7, 7]` (two bytes committed, the store changed) and
the call ends in a panic — the `.unwrap()` on `set_offset`'s `Err` — rather
than in any returned error. -/
theorem c1_counterexample :
    (patchFile c1State "f1" [7, 7] 0 2).1 = .panicked ∧
      lookupFile (patchFile c1State "f1" [7, 7] 0 2).2 "f1" =
        some ⟨[7, 7], c1Info⟩ ∧
      ¬ (patchFile c1State "f1" [7, 7] 0 2).2 = c1State := by decide

/-- **C1** amended: when the client offset matches the stored offset but
`client_offset + buffer length` exceeds the `FileInfo`'s length, a full
write commits the buffer to the data file first, and `patch_file` then
panics on `set_offset(..).unwrap()` — the sidecar keeps the old offset but
the data file is modified; no error value is returned. -/
theorem c1_overlong_patch_panics (st : VaultState) (id : String)
    (entry : UploadEntry) (buf : List Nat) (offset : Nat)
    (hlk : lookupFile st id = some entry)
    (hoff : entry.info.offset = offset)
    (hover : entry.info.length < offset + buf.length)
    (hmax : buf.length < U64MAX) :
    patchFile st id buf offset buf.length =
      (.panicked, updateFile st id ⟨writeAt entry.content offset buf, entry.info⟩) := by
  have hso : entry.info.setOffset (offset + buf.length) = .error () := by
    simp [FileInfo.setOffset, hover]
  simp [patchFile, hlk, hoff, Nat.not_le.mpr hmax, hso, List.take_length]

/-- **C1** witness: the amended statement at the concrete store. -/
theorem c1_witness :
    patchFile c1State "f1" [7, 7] 0 ([7, 7] : List Nat).length =
      (.panicked,
        updateFile c1State "f1" ⟨writeAt c1Entry.content 0 [7, 7], c1Entry.info⟩) :=
  c1_overlong_patch_panics c1State "f1" c1Entry [7, 7] 0
    (by decide) (by decide) (by decide) (by decide)

/-- **C6.** When the registered `on_creation` callback rejects the built
`FileInfo` with an error message, `creation_handler` answers
422 Unprocessable Entity carrying that message, `vault.create_file` is not
invoked, the `on_created` callback does not fire, and the store is
untouched. -/
theorem c6_on_creation_rejection (savePath : String) (st : VaultState)
    (uploadLength : Nat) (metadata : Option (List Char)) (uuid : String)
    (cb : FileInfo → Except String Unit) (onCreatedRegistered : Bool)
    (baseRoute : String) (file : FileInfo) (msg : String)
    (hbuild : buildFile uploadLength metadata uuid = .ok file)
    (hcb : cb file = .error msg) :
    creationHandler savePath st uploadLength metadata uuid (some cb)
        onCreatedRegistered baseRoute true =
      (.failure 422 msg, ⟨false, false⟩, st) := by
  simp [creationHandler, hbuild, hcb]

/-- **C6** witness: a callback rejecting with `"rejected"` at a concrete
request. -/
theorem c6_witness :
    creationHandler "./tmp/files" ⟨[]⟩ 5 none "u9"
        (some (fun _ => .error "rejected")) true "/meteoritus" true =
      (.failure 422 "rejected", ⟨false, false⟩, ⟨[]⟩) :=
  c6_on_creation_rejection "./tmp/files" ⟨[]⟩ 5 none "u9"
    (fun _ => .error "rejected") true "/meteoritus"
    { id := "u9", file_name := "", length := 5, offset := 0,
      metadata := some emptyMetadata } "rejected" rfl rfl

/-- **C5.** Every `patch_file` call that succeeds after writing `w` bytes at
the client offset (short writes, `w <` buffer length, included) reports the
new offset `o' = client_offset + w`: it returns `Completed` exactly when
`o'` equals the `FileInfo`'s length, and `Patched(o')` otherwise. -/
theorem c5_patch_success (st : VaultState) (id : String) (entry : UploadEntry)
    (buf : List Nat) (offset w : Nat) (res : PatchOption) (st1 : VaultState)
    (hlk : lookupFile st id = some entry)
    (_hw : w ≤ buf.length)
    (hres : patchFile st id buf offset w = (.ok res, st1)) :
    (¬ offset + w = entry.info.length ∧ res = .patched (offset + w))
    ∨ (offset + w = entry.info.length ∧ ∃ fc : FileInfo, res = .completed fc) := by
  by_cases hoff : entry.info.offset = offset
  · by_cases hm : U64MAX ≤ w
    · simp [patchFile, hlk, hoff, hm] at hres
    · by_cases hl : entry.info.length < offset + w
      · have hso : entry.info.setOffset (offset + w) = .error () := by
          simp [FileInfo.setOffset, hl]
        simp [patchFile, hlk, hoff, hm, hso] at hres
      · have hso : entry.info.setOffset (offset + w) =
            .ok { entry.info with offset := offset + w } := by
          simp [FileInfo.setOffset, hl]
        by_cases hc : offset + w = entry.info.length
        · have hcc : FileInfo.checkCompletion { entry.info with offset := offset + w } =
              some { entry.info with offset := offset + w } := by
            simp [FileInfo.checkCompletion, hc]
          right
          refine ⟨hc, { entry.info with offset := offset + w }, ?_⟩
          simp [patchFile, hlk, hoff, hm, hso, hcc] at hres
          exact hres.1.symm
        · have hcc : FileInfo.checkCompletion { entry.info with offset := offset + w } =
              none := by
            simp [FileInfo.checkCompletion, hc]
          left
          refine ⟨hc, ?_⟩
          simp [patchFile, hlk, hoff, hm, hso, hcc] at hres
          exact hres.1.symm
  · simp [patchFile, hlk, hoff] at hres

/-- **C5** witness: a one-byte write on the two-byte upload returns
`Patched(1)`. -/
theorem c5_witness :
    (¬ 0 + 1 = c5Entry.info.length ∧
        PatchOption.patched 1 = .patched (0 + 1))
    ∨ (0 + 1 = c5Entry.info.length ∧
        ∃ fc : FileInfo, PatchOption.patched 1 = .completed fc) :=
  c5_patch_success c5State "g1" c5Entry [9] 0 1 (.patched 1)
    (updateFile (updateFile c5State "g1" ⟨[9, 0], c5Info⟩) "g1"
      ⟨[9, 0], { c5Info with offset := 1 }⟩)
    (by decide) (by decide) (by decide)

/-! ### Lemmas on the metadata codec's string helpers -/

theorem splitOnChar_ne_nil (sep : Char) (l : List Char) : splitOnChar sep l ≠ [] := by
  cases l with
  | nil => simp [splitOnChar]
  | cons c rest =>
    simp only [splitOnChar]
    by_cases h : c = sep
    · simp [h]
    · simp only [h, if_false]
      rcases hr : splitOnChar sep rest with _ | ⟨a, b⟩ <;> simp

theorem dropWhile_head_false (p : Char → Bool) (l : List Char) (c : Char)
    (t : List Char) (h : l.dropWhile p = c :: t) : p c = false := by
  induction l with
  | nil => simp at h
  | cons a rest ih =>
    rw [List.dropWhile_cons] at h
    by_cases ha : p a
    · exact ih (by simpa [ha] using h)
    · simp only [ha, if_false] at h
      obtain ⟨rfl, -⟩ := List.cons.inj h
      simpa using ha

theorem trimLeft_cons (c : Char) (t : List Char) (hc : isWhitespace c = false) :
    trimLeft (c :: t) = c :: t := by
  simp [trimLeft, List.dropWhile_cons, hc]

theorem trimRight_cons (c : Char) (t : List Char) (hc : isWhitespace c = false) :
    trimRight (c :: t) = c :: trimRight t := by
  unfold trimRight
  rw [List.reverse_cons, List.dropWhile_append]
  by_cases h : (t.reverse.dropWhile fun x => isWhitespace x).isEmpty
  · rw [if_pos h]
    have ht : t.reverse.dropWhile (fun x => isWhitespace x) = [] := by
      simpa [List.isEmpty_iff] using h
    simp [List.dropWhile_cons, hc, ht]
  · rw [if_neg h]
    simp [List.reverse_append]

theorem trimRight_no_ws (l : List Char)
    (h : ∀ c ∈ l, isWhitespace c = false) : trimRight l = l := by
  induction l with
  | nil => rfl
  | cons c t ih =>
    rw [trimRight_cons c t (h c (by simp)), ih (fun x hx => h x (by simp [hx]))]

theorem trim_no_ws (l : List Char)
    (h : ∀ c ∈ l, isWhitespace c = false) : trimChars l = l := by
  cases l with
  | nil => rfl
  | cons c t =>
    unfold trimChars
    rw [trimLeft_cons c t (h c (by simp)), trimRight_no_ws _ h]

theorem trim_cons_ne_nil (c : Char) (t : List Char)
    (hc : isWhitespace c = false) : trimChars (c :: t) ≠ [] := by
  unfold trimChars
  rw [trimLeft_cons c t hc, trimRight_cons c t hc]
  simp

theorem trim_head (l : List Char) (h : trimChars l ≠ []) :
    ∃ c t, trimChars l = c :: t ∧ isWhitespace c = false := by
  rcases hd : trimLeft l with _ | ⟨c, t⟩
  · exact absurd (by simp [trimChars, hd, trimRight]) h
  · have hc : isWhitespace c = false := dropWhile_head_false _ l c t hd
    exact ⟨c, trimRight t, by rw [trimChars, hd, trimRight_cons c t hc], hc⟩

theorem splitOnChar_cons_ne (sep c : Char) (t : List Char) (h : ¬ c = sep) :
    ∃ h1 rest1, splitOnChar sep (c :: t) = (c :: h1) :: rest1 := by
  simp only [splitOnChar, h, if_false]
  rcases hr : splitOnChar sep t with _ | ⟨a, b⟩
  · exact absurd hr (splitOnChar_ne_nil sep t)
  · exact ⟨a, b, rfl⟩

theorem ne_space_of_not_ws (c : Char) (h : isWhitespace c = false) :
    ¬ c = ' ' := by
  intro e
  rw [e] at h
  exact absurd h (by decide)

/-- The `InvalidKey` guard of `Metadata::try_from` is unreachable: the key
part of a trimmed non-empty pair always trims to a non-empty token. -/
theorem parsed_parts_head (p : List Char) (hp : trimChars p ≠ []) :
    ((splitOnChar ' ' (trimChars p)).map trimChars).headI ≠ [] := by
  obtain ⟨c, t, hct, hc⟩ := trim_head p hp
  obtain ⟨h1, rest1, hsp⟩ := splitOnChar_cons_ne ' ' c t (ne_space_of_not_ws c hc)
  rw [hct, hsp]
  simpa using trim_cons_ne_nil c h1 hc

theorem insertPairs_ok_iff (pairs : List (List Char)) (m : Metadata) :
    (∃ m2, insertPairs pairs m = .ok m2) ↔
      ∀ p ∈ pairs,
        trimChars p = [] ∨ (splitOnChar ' ' (trimChars p)).length ≤ 2 := by
  induction pairs generalizing m with
  | nil => simp [insertPairs]
  | cons p rest ih =>
    simp only [insertPairs]
    by_cases hq : trimChars p = []
    · simpa [hq] using ih m
    · rw [if_neg hq]
      have hne0 : (splitOnChar ' ' (trimChars p)).length ≠ 0 := by
        simpa [List.length_eq_zero] using splitOnChar_ne_nil ' ' (trimChars p)
      by_cases hlen : (splitOnChar ' ' (trimChars p)).length ≤ 2
      · have hcond : ¬ (((splitOnChar ' ' (trimChars p)).map trimChars).length = 0 ∨
            ((splitOnChar ' ' (trimChars p)).map trimChars).length > 2) := by
          rw [List.length_map]
          exact fun h => h.elim hne0 (fun h2 => absurd hlen (Nat.not_le.mpr h2))
        rw [if_neg hcond, if_neg (parsed_parts_head p hq)]
        rw [ih]
        simp [List.forall_mem_cons, hlen]
      · have hcond : (((splitOnChar ' ' (trimChars p)).map trimChars).length = 0 ∨
            ((splitOnChar ' ' (trimChars p)).map trimChars).length > 2) := by
          rw [List.length_map]
          exact Or.inr (Nat.lt_of_not_le hlen)
        rw [if_pos hcond]
        simp [List.forall_mem_cons, hq, hlen]

theorem insertPairs_error_kind (pairs : List (List Char)) (m : Metadata)
    (e : MetadataError) (h : insertPairs pairs m = .error e) :
    e = .invalidMetadataFormat := by
  induction pairs generalizing m with
  | nil => simp [insertPairs] at h
  | cons p rest ih =>
    simp only [insertPairs] at h
    by_cases hq : trimChars p = []
    · rw [if_pos hq] at h
      exact ih _ h
    · rw [if_neg hq] at h
      by_cases hcond : (((splitOnChar ' ' (trimChars p)).map trimChars).length = 0 ∨
          ((splitOnChar ' ' (trimChars p)).map trimChars).length > 2)
      · rw [if_pos hcond] at h
        exact (Except.error.inj h).symm
      · rw [if_neg hcond, if_neg (parsed_parts_head p hq)] at h
        exact ih _ h

/-- **C7** counterexample: the pair `"a  b"` (two spaces) has exactly two
whitespace-separated tokens and a non-empty key, so by the claim parsing
should succeed — but `Metadata::try_from` splits on every single space,
sees the empty middle part as a third token, and fails with
`InvalidMetadataFormat`. -/
theorem c7_counterexample :
    metadataTryFrom (String.data "a  b") = .error .invalidMetadataFormat ∧
      ((splitOnChar ' ' (String.data "a  b")).filter
          (fun t => ¬ t = [])).length = 2 :=
  ⟨rfl, by decide⟩

/-- **C7** amended: parsing fails exactly when the input is empty or some
comma-separated pair, after trimming, splits on single space characters
into more than two parts (consecutive spaces contribute empty parts that
count); any failure is `InvalidMetadataFormat` — the `InvalidKey` branch is
unreachable.  Empty pairs are skipped and a no-separator pair binds the key
to the empty value (proved separately in the C9 theorem). -/
theorem c7_parse_characterization (s : List Char) :
    ((∃ m, metadataTryFrom s = .ok m) ↔
      (¬ s = [] ∧ ∀ p ∈ splitOnChar ',' s,
        trimChars p = [] ∨ (splitOnChar ' ' (trimChars p)).length ≤ 2))
    ∧ (∀ e, metadataTryFrom s = .error e → e = .invalidMetadataFormat) := by
  unfold metadataTryFrom
  by_cases hs : s = []
  · simp [hs]
  · rw [if_neg hs]
    exact ⟨by simp [hs, insertPairs_ok_iff],
           fun e h => insertPairs_error_kind _ _ e h⟩

/-- **C7** witness: a well-formed header parses. -/
theorem c7_witness :
    ∃ m, metadataTryFrom (String.data "filetype dmlkZW8vbXA0") = .ok m :=
  (c7_parse_characterization (String.data "filetype dmlkZW8vbXA0")).1.mpr
    (by decide)

/-! ### Token-level lemmas for the duplicate-key and bare-key claims -/

theorem splitOnChar_no_sep (sep : Char) (l : List Char)
    (h : ∀ c ∈ l, ¬ c = sep) : splitOnChar sep l = [l] := by
  induction l with
  | nil => rfl
  | cons c t ih =>
    have hc : ¬ c = sep := h c (by simp)
    have ht := ih (fun x hx => h x (by simp [hx]))
    simp only [splitOnChar, hc, if_false, ht]

theorem splitOnChar_append_sep (sep : Char) (a b : List Char)
    (h : ∀ c ∈ a, ¬ c = sep) :
    splitOnChar sep (a ++ sep :: b) = a :: splitOnChar sep b := by
  induction a with
  | nil => simp [splitOnChar]
  | cons c t ih =>
    have hc : ¬ c = sep := h c (by simp)
    have ht := ih (fun x hx => h x (by simp [hx]))
    show splitOnChar sep ((c :: t) ++ sep :: b) = (c :: t) :: splitOnChar sep b
    rw [List.cons_append]
    simp only [splitOnChar, hc, if_false, List.append_eq, ht]

theorem trimRight_append_last (a : List Char) (c : Char)
    (hc : isWhitespace c = false) : trimRight (a ++ [c]) = a ++ [c] := by
  unfold trimRight
  rw [List.reverse_append]
  simp [List.dropWhile_cons, hc]

/-- Trimming a `key SP value` pair made of whitespace-free tokens is the
identity. -/
theorem trim_pair_eq_self (k v : List Char) (hk : ¬ k = [])
    (hkw : ∀ c ∈ k, isWhitespace c = false)
    (hv : ¬ v = []) (hvw : ∀ c ∈ v, isWhitespace c = false) :
    trimChars (k ++ ' ' :: v) = k ++ ' ' :: v := by
  rcases k with _ | ⟨kc, kt⟩
  · exact absurd rfl hk
  rcases v.eq_nil_or_concat' with hv0 | ⟨L, b, rfl⟩
  · exact absurd hv0 hv
  have hb : isWhitespace b = false := hvw b (by simp)
  unfold trimChars
  rw [List.cons_append, trimLeft_cons kc _ (hkw kc (by simp))]
  have hsplit : (kc :: kt) ++ ' ' :: (L ++ [b]) = ((kc :: kt) ++ ' ' :: L) ++ [b] := by
    simp
  rw [← List.cons_append, hsplit, trimRight_append_last _ b hb]

/-- Splitting a `key SP value` pair of space-free tokens yields the two
tokens. -/
theorem split_pair (k v : List Char)
    (hkw : ∀ c ∈ k, isWhitespace c = false)
    (hvw : ∀ c ∈ v, isWhitespace c = false) :
    splitOnChar ' ' (k ++ ' ' :: v) = [k, v] := by
  rw [splitOnChar_append_sep ' ' k v
      (fun c hc => ne_space_of_not_ws c (hkw c hc)),
    splitOnChar_no_sep ' ' v (fun c hc => ne_space_of_not_ws c (hvw c hc))]

/-- **C8.** A header in which the same key occurs in two well-formed
`key SP value` pairs parses successfully; the mapping binds the key to the
value of the later pair (`HashMap::insert` silently overwrites the earlier
one) and `len()` counts the key once. -/
theorem c8_duplicate_key (k v1 v2 : List Char) (hk : ¬ k = [])
    (hkc : ∀ c ∈ k, isWhitespace c = false ∧ ¬ c = ',')
    (hv1 : ¬ v1 = []) (hv1c : ∀ c ∈ v1, isWhitespace c = false ∧ ¬ c = ',')
    (hv2 : ¬ v2 = []) (hv2c : ∀ c ∈ v2, isWhitespace c = false ∧ ¬ c = ',') :
    metadataTryFrom (k ++ ' ' :: v1 ++ ',' :: (k ++ ' ' :: v2)) =
      .ok ⟨[(k, v2)]⟩
    ∧ mdGet ⟨[(k, v2)]⟩ k = some v2 ∧ mdLen ⟨[(k, v2)]⟩ = 1 := by
  have hkw : ∀ c ∈ k, isWhitespace c = false := fun c hc => (hkc c hc).1
  have hkcm : ∀ c ∈ k, ¬ c = ',' := fun c hc => (hkc c hc).2
  have hv1w : ∀ c ∈ v1, isWhitespace c = false := fun c hc => (hv1c c hc).1
  have hv1cm : ∀ c ∈ v1, ¬ c = ',' := fun c hc => (hv1c c hc).2
  have hv2w : ∀ c ∈ v2, isWhitespace c = false := fun c hc => (hv2c c hc).1
  have hv2cm : ∀ c ∈ v2, ¬ c = ',' := fun c hc => (hv2c c hc).2
  have hp1 : ∀ c ∈ k ++ ' ' :: v1, ¬ c = ',' := by
    intro c hc
    rcases List.mem_append.mp hc with h | h
    · exact hkcm c h
    · rcases List.mem_cons.mp h with rfl | h
      · decide
      · exact hv1cm c h
  have hp2 : ∀ c ∈ k ++ ' ' :: v2, ¬ c = ',' := by
    intro c hc
    rcases List.mem_append.mp hc with h | h
    · exact hkcm c h
    · rcases List.mem_cons.mp h with rfl | h
      · decide
      · exact hv2cm c h
  have hsne : ¬ (k ++ ' ' :: v1 ++ ',' :: (k ++ ' ' :: v2)) = [] := by
    rcases k with _ | ⟨a, b⟩
    · exact absurd rfl hk
    · simp
  have hcomma : splitOnChar ',' (k ++ ' ' :: v1 ++ ',' :: (k ++ ' ' :: v2)) =
      [k ++ ' ' :: v1, k ++ ' ' :: v2] := by
    have hassoc : k ++ ' ' :: v1 ++ ',' :: (k ++ ' ' :: v2) =
        (k ++ ' ' :: v1) ++ ',' :: (k ++ ' ' :: v2) := by simp
    rw [hassoc, splitOnChar_append_sep ',' _ _ hp1,
      splitOnChar_no_sep ',' _ hp2]
  have ht1 : trimChars (k ++ ' ' :: v1) = k ++ ' ' :: v1 :=
    trim_pair_eq_self k v1 hk hkw hv1 hv1w
  have ht2 : trimChars (k ++ ' ' :: v2) = k ++ ' ' :: v2 :=
    trim_pair_eq_self k v2 hk hkw hv2 hv2w
  have hs1 : splitOnChar ' ' (k ++ ' ' :: v1) = [k, v1] := split_pair k v1 hkw hv1w
  have hs2 : splitOnChar ' ' (k ++ ' ' :: v2) = [k, v2] := split_pair k v2 hkw hv2w
  have htk : trimChars k = k := trim_no_ws k hkw
  have htv1 : trimChars v1 = v1 := trim_no_ws v1 hv1w
  have htv2 : trimChars v2 = v2 := trim_no_ws v2 hv2w
  have hp1ne : ¬ (k ++ ' ' :: v1) = [] := by
    rcases k with _ | ⟨a, b⟩
    · exact absurd rfl hk
    · simp
  have hp2ne : ¬ (k ++ ' ' :: v2) = [] := by
    rcases k with _ | ⟨a, b⟩
    · exact absurd rfl hk
    · simp
  refine ⟨?_, ?_, rfl⟩
  · unfold metadataTryFrom
    rw [if_neg hsne, hcomma]
    simp only [insertPairs, ht1, ht2, hs1, hs2, List.map_cons, List.map_nil,
      htk, htv1, htv2]
    rw [if_neg hp1ne, if_neg hp2ne]
    simp [hk, mdInsert, emptyMetadata]
  · simp [mdGet]

/-- **C8** witness: `"k a,k b"` parses to the single binding `k ↦ b`. -/
theorem c8_witness :
    metadataTryFrom (['k'] ++ ' ' :: ['a'] ++ ',' :: (['k'] ++ ' ' :: ['b'])) =
      .ok ⟨[(['k'], ['b'])]⟩
    ∧ mdGet ⟨[(['k'], ['b'])]⟩ ['k'] = some ['b']
    ∧ mdLen ⟨[(['k'], ['b'])]⟩ = 1 :=
  c8_duplicate_key ['k'] ['a'] ['b'] (by decide) (by decide) (by decide)
    (by decide) (by decide) (by decide)

/-- **C9.** A pair with no space separator parses to its key bound to the
empty string, and `get_raw` on that key succeeds with the empty byte
vector (the empty string base64-decodes to zero bytes), not a
`DecodeError`. -/
theorem c9_bare_key (k : List Char) (hk : ¬ k = [])
    (hkc : ∀ c ∈ k, isWhitespace c = false ∧ ¬ c = ',') :
    metadataTryFrom k = .ok ⟨[(k, [])]⟩ ∧ getRaw ⟨[(k, [])]⟩ k = .ok [] := by
  have hkw : ∀ c ∈ k, isWhitespace c = false := fun c hc => (hkc c hc).1
  have hkcm : ∀ c ∈ k, ¬ c = ',' := fun c hc => (hkc c hc).2
  have hsp : splitOnChar ',' k = [k] := splitOnChar_no_sep ',' k hkcm
  have hss : splitOnChar ' ' k = [k] :=
    splitOnChar_no_sep ' ' k (fun c hc => ne_space_of_not_ws c (hkw c hc))
  have htk : trimChars k = k := trim_no_ws k hkw
  constructor
  · unfold metadataTryFrom
    rw [if_neg hk, hsp]
    simp only [insertPairs, htk, hss, List.map_cons, List.map_nil]
    rw [if_neg hk]
    simp [hk, mdInsert, emptyMetadata]
  · simp [getRaw, mdGet, b64Decode]

/-- **C9** witness: the bare key `"f"`. -/
theorem c9_witness :
    metadataTryFrom ['f'] = .ok ⟨[(['f'], [])]⟩ ∧
      getRaw ⟨[(['f'], [])]⟩ ['f'] = .ok [] :=
  c9_bare_key ['f'] (by decide) (by decide)

end Meteoritus
